import Mathlib

/-!
Verification of the StreamFlix partition-migration and benchmark scripts.

The definitions below are shallow embeddings of the Python sources:

* `PartitionSolution.migrate_data_to_partitioned` embeds
  `StreamFlixPartitionManager.migrate_data_to_partitioned` from
  `3_partition_solution.py` (TRUNCATE destination, snapshot `count(*)`,
  then a `while migrated_rows < total_rows` loop whose body runs
  `INSERT INTO ... SELECT * FROM viewing_events ORDER BY event_id
  OFFSET {migrated_rows} LIMIT {batch_size}`, commits, adds
  `cur.rowcount` to `migrated_rows`, and breaks when a batch moves 0 rows).
* `Task32.migrate_data_to_partitioned` embeds the same method from
  `Task3_2.py`, which is identical except that it does not TRUNCATE the
  destination first.
* `PartitionSolution.create_monthly_partitions` embeds
  `StreamFlixPartitionManager.create_monthly_partitions` (loop over
  consecutive months, each calling the external DDL capability, committing
  on success, and on the first failure rolling back that single call,
  recording the error and breaking out of the loop).
* `verify` embeds the row-count integrity comparison (the check at the end
  of `migrate_data_to_partitioned` and Test 4 of `Helper.test_solution`):
  both tables are counted and the counts compared for equality.
* `OptimizationReport.median` / `OptimizationReport.time_query` embed
  `time_query` from `4_optimization_report.py` (one warm-up execution whose
  duration is discarded, then `runs` measured executions, returning
  `statistics.median` of the measured durations).
* `OptimizationReport.improvement_pct` embeds the improvement computation
  of `generate_performance_report` in `4_optimization_report.py`:
  `(before_ms - after_ms) / before_ms * 100.0 if before_ms > 0 else 0.0`.

Rows are represented by their `event_id` (a natural number): the migration
queries only order by, and paginate over, `event_id`, so the identifier is
the only row component the verified properties depend on.  A database table
is a `List Nat` (a multiset of rows in insertion order).  Because the
source table is read anew by every SQL statement of the migration loop, the
general model `migrate_data_to_partitioned_dyn` takes a function
`srcAt : Nat → List Nat` giving the contents of `viewing_events` at the
time of the j-th statement (statement 0 is the `SELECT count(*)` snapshot,
statement j ≥ 1 is the j-th batch INSERT); the static special case fixes
`srcAt` to a constant.  The Python `while` loop is embedded with an
explicit fuel argument; since every non-final iteration strictly increases
`migrated_rows` while the loop guard keeps `migrated_rows < total_rows`,
`total_rows + 1` units of fuel are never exhausted
(`migLoop_fuel_irrelevant` proves the result does not depend on the fuel
once it exceeds `total - migrated`).
-/

namespace BigData

/-- Result record of one invocation of `migrate_data_to_partitioned`:
the `count(*)` snapshot, the final value of `migrated_rows`, the number of
executed batch INSERT statements, the final contents of
`viewing_events_partitioned`, and the list of row batches in the order the
batch INSERTs moved them. -/
structure MigResult where
  total : Nat
  migrated : Nat
  batchesApplied : Nat
  dest : List Nat
  batchesList : List (List Nat)
deriving DecidableEq

/-- Embeds `ORDER BY event_id` on a table of rows. -/
def sortIds (l : List Nat) : List Nat :=
  List.insertionSort (· ≤ ·) l

/-- Embeds `SELECT * FROM viewing_events ORDER BY event_id OFFSET off
LIMIT lim` against source contents `src`. -/
def fetchBatch (src : List Nat) (off lim : Nat) : List Nat :=
  ((sortIds src).drop off).take lim

/-- Embeds the migration `while migrated_rows < total_rows` loop.
`srcAt j` is the source table at the j-th SQL statement; each iteration
executes the OFFSET/LIMIT INSERT, commits, adds the batch row count to
`migrated_rows`, and breaks when a batch inserts zero rows.  `fuel` bounds
the number of remaining iterations; callers pass more fuel than the loop
can consume. -/
def migLoop (srcAt : Nat → List Nat) (B total migrated nbatches j : Nat)
    (dest : List Nat) (acc : List (List Nat)) (fuel : Nat) : MigResult :=
  match fuel with
  | 0 => ⟨total, migrated, nbatches, dest, acc⟩
  | fuel' + 1 =>
    if migrated < total then
      let batch := fetchBatch (srcAt j) migrated B
      if batch.length = 0 then
        ⟨total, migrated, nbatches + 1, dest ++ batch, acc ++ [batch]⟩
      else
        migLoop srcAt B total (migrated + batch.length) (nbatches + 1)
          (j + 1) (dest ++ batch) (acc ++ [batch]) fuel'
    else
      ⟨total, migrated, nbatches, dest, acc⟩

namespace PartitionSolution

/-- Embeds `migrate_data_to_partitioned` of `3_partition_solution.py` over
a possibly changing source.  The method first executes
`TRUNCATE TABLE viewing_events_partitioned` and commits (so `dest0`, the
destination contents at entry, is discarded), then snapshots
`SELECT count(*) FROM viewing_events`; a zero snapshot returns early
before the loop. -/
def migrate_data_to_partitioned_dyn (srcAt : Nat → List Nat)
    (dest0 : List Nat) (batch_size : Nat) : MigResult :=
  let destTruncated : List Nat := []
  let total := (srcAt 0).length
  if total = 0 then
    { total := 0, migrated := 0, batchesApplied := 0,
      dest := destTruncated, batchesList := [] }
  else
    migLoop srcAt batch_size total 0 0 1 destTruncated [] (total + 1)

/-- The run of `3_partition_solution.py`'s `migrate_data_to_partitioned`
against a source table `src` that does not change during the run. -/
def migrate_data_to_partitioned (src dest0 : List Nat)
    (batch_size : Nat) : MigResult :=
  migrate_data_to_partitioned_dyn (fun _ => src) dest0 batch_size

end PartitionSolution

/-- Destination contents after the migration loop has committed at most
`k` batches and is then interrupted (the per-batch commit makes each
`dest` extension durable; `migrated_rows` is only a local Python variable
and does not survive the interruption). -/
def migLoopUpTo (srcAt : Nat → List Nat) (B total migrated j : Nat)
    (dest : List Nat) (k : Nat) : List Nat :=
  match k with
  | 0 => dest
  | k' + 1 =>
    if migrated < total then
      let batch := fetchBatch (srcAt j) migrated B
      if batch.length = 0 then dest ++ batch
      else
        migLoopUpTo srcAt B total (migrated + batch.length) (j + 1)
          (dest ++ batch) k'
    else dest

/-- Destination contents when a `3_partition_solution.py` migration run on
static source `src` is interrupted after committing batch `k` (the
TRUNCATE and the count snapshot have already been committed). -/
def PartitionSolution.interruptedDest (src dest0 : List Nat)
    (batch_size k : Nat) : List Nat :=
  let destTruncated : List Nat := []
  let total := src.length
  if total = 0 then destTruncated
  else migLoopUpTo (fun _ => src) batch_size total 0 1 destTruncated k

namespace Task32

/-- Embeds `migrate_data_to_partitioned` of `Task3_2.py` on a static
source: identical to the `3_partition_solution.py` version except that the
destination is NOT truncated, so the batches are appended to the rows
`dest0` already present in `viewing_events_partitioned` at entry. -/
def migrate_data_to_partitioned (src dest0 : List Nat)
    (batch_size : Nat) : MigResult :=
  let total := src.length
  if total = 0 then
    { total := 0, migrated := 0, batchesApplied := 0,
      dest := dest0, batchesList := [] }
  else
    migLoop (fun _ => src) batch_size total 0 0 1 dest0 [] (total + 1)

/-- Destination contents when a `Task3_2.py` migration run on static
source `src` is interrupted after committing batch `k`. -/
def interruptedDest (src dest0 : List Nat) (batch_size k : Nat) :
    List Nat :=
  let total := src.length
  if total = 0 then dest0
  else migLoopUpTo (fun _ => src) batch_size total 0 1 dest0 k

end Task32

/-- Outcome of the row-count integrity comparison. -/
structure VerificationOutcome where
  sourceCount : Nat
  destCount : Nat
  rowCountsMatch : Bool
deriving DecidableEq

/-- Embeds the integrity verification (the final count comparison of
`migrate_data_to_partitioned` and Test 4 of `Helper.test_solution`): count
both tables independently and report whether the counts are equal. -/
def verify (source dest : List Nat) : VerificationOutcome :=
  { sourceCount := source.length
    destCount := dest.length
    rowCountsMatch := source.length == dest.length }

/-- Result of `create_monthly_partitions`: the target months whose
partitions were created and committed, the target months for which the DDL
capability was invoked at all, and the error messages printed (the loop
records one and stops at the first failure). -/
structure CreateResult where
  created : List Nat
  attempted : List Nat
  errorLog : List String
deriving DecidableEq

/-- Loop body of `create_monthly_partitions`: for each remaining target
month, invoke `SELECT create_partition_and_indexes(%s)` (modelled by the
`outcome` oracle); on success commit and continue, on the first
`psycopg2.Error` print the error, roll back that statement only, and
break. -/
def cmpLoop (outcome : Nat → Except String Unit) :
    List Nat → CreateResult → CreateResult
  | [], st => st
  | d :: rest, st =>
    match outcome d with
    | .ok _ =>
      cmpLoop outcome rest
        ⟨st.created ++ [d], st.attempted ++ [d], st.errorLog⟩
    | .error e => ⟨st.created, st.attempted ++ [d], st.errorLog ++ [e]⟩

/-- Embeds `create_monthly_partitions(start_date_str, num_months)`: months
are numbered, `start_month + i` standing for
`start_date + relativedelta(months=i)`. -/
def create_monthly_partitions (outcome : Nat → Except String Unit)
    (start_month num_months : Nat) : CreateResult :=
  cmpLoop outcome ((List.range num_months).map (fun i => start_month + i))
    ⟨[], [], []⟩

/-- Partitions existing in the database after a `create_monthly_partitions`
call, given the partitions `db0` existing before it: each successful
per-month DDL call was committed individually and the error path rolls
back only the failing statement, so everything in `r.created` is added and
nothing is removed. -/
def partitionsAfter (db0 : List Nat) (r : CreateResult) : List Nat :=
  db0 ++ r.created

namespace OptimizationReport

/-- Embeds Python `statistics.median`: sort the samples; an odd-length
list yields the middle element, an even-length list the mean of the two
middle elements, and the empty list is an error (`none`). -/
def median (xs : List ℚ) : Option ℚ :=
  let s := List.insertionSort (· ≤ ·) xs
  if s.length = 0 then none
  else if s.length % 2 = 1 then s.get? (s.length / 2)
  else do
    let a ← s.get? (s.length / 2 - 1)
    let b ← s.get? (s.length / 2)
    pure ((a + b) / 2)

/-- Embeds `time_query(cur, sql, runs)` of `4_optimization_report.py`.
`durs n` is the wall-clock duration (ms) of the n-th execution of the
query; execution 0 is the warm-up, whose duration the code never records,
and executions 1..runs are the measured ones appended to `times`.  The
function returns `stats.median(times)`. -/
def time_query (durs : Nat → ℚ) (runs : Nat) : Option ℚ :=
  median ((List.range runs).map (fun i => durs (i + 1)))

/-- Embeds the improvement computation of `generate_performance_report`:
`improvement = (before_ms - after_ms) / before_ms * 100.0 if before_ms > 0
else 0.0`. -/
def improvement_pct (before_ms after_ms : ℚ) : ℚ :=
  if 0 < before_ms then (before_ms - after_ms) / before_ms * 100 else 0

end OptimizationReport

/-- The successive values taken by the `migrated_rows` variable during a
run: it starts at 0 and each executed batch adds that batch's row count. -/
def migratedTrace (r : MigResult) : List Nat :=
  List.scanl (· + ·) 0 (r.batchesList.map List.length)

/-- The keyset-pagination slice the specification describes: the first
`lim` rows, in identifier order, whose identifier is strictly greater than
the last migrated identifier `lastId`. -/
def keyset_slice (src : List Nat) (lastId lim : Nat) : List Nat :=
  (sortIds (src.filter (fun x => lastId < x))).take lim

/-- Every row of the earlier batch precedes every row of the later batch:
the later batch begins strictly after the last identifier migrated by the
earlier one. -/
def crossLt (b1 b2 : List Nat) : Prop :=
  ∀ x ∈ b1, ∀ y ∈ b2, x < y

instance (b1 b2 : List Nat) : Decidable (crossLt b1 b2) := by
  unfold crossLt
  infer_instance

end BigData

namespace BigData

theorem length_sortIds (l : List Nat) : (sortIds l).length = l.length :=
  (List.perm_insertionSort _ l).length_eq

theorem perm_sortIds (l : List Nat) : List.Perm (sortIds l) l :=
  List.perm_insertionSort _ l

theorem aux_take_append_drop_length :
    ∀ (u : List Nat) (k : Nat), u.take k ++ u.drop (u.take k).length = u := by
  intro u
  induction u with
  | nil => intro k; simp
  | cons a u ih =>
    intro k
    cases k with
    | zero => simp
    | succ k =>
      simp only [List.take_succ_cons, List.length_cons, List.drop_succ_cons,
        List.cons_append, List.cons.injEq, true_and]
      exact ih k

theorem aux_slice_glue (L : List Nat) (m B : Nat) :
    (L.drop m).take B ++ L.drop (m + ((L.drop m).take B).length) = L.drop m := by
  have h1 : L.drop (m + ((L.drop m).take B).length) =
      (L.drop m).drop ((L.drop m).take B).length := by
    rw [List.drop_drop, Nat.add_comm]
  rw [h1]
  exact aux_take_append_drop_length (L.drop m) B

theorem length_fetchBatch (src : List Nat) (off lim : Nat) :
    (fetchBatch src off lim).length = min lim (src.length - off) := by
  simp [fetchBatch, List.length_take, List.length_drop, length_sortIds]

end BigData

namespace BigData

theorem migLoop_fuel_irrelevant (srcAt : Nat → List Nat) (B total : Nat) :
    ∀ (fuel1 fuel2 migrated nbatches j : Nat) (dest : List Nat)
      (acc : List (List Nat)),
      total - migrated < fuel1 → total - migrated < fuel2 →
      migLoop srcAt B total migrated nbatches j dest acc fuel1 =
        migLoop srcAt B total migrated nbatches j dest acc fuel2 := by
  intro fuel1
  induction fuel1 with
  | zero => intro fuel2 migrated _ _ _ _ h1 _; omega
  | succ f ih =>
    intro fuel2 migrated nbatches j dest acc h1 h2
    cases fuel2 with
    | zero => omega
    | succ g =>
      simp only [migLoop]
      by_cases hlt : migrated < total
      · rw [if_pos hlt, if_pos hlt]
        by_cases hz : (fetchBatch (srcAt j) migrated B).length = 0
        · rw [if_pos hz, if_pos hz]
        · rw [if_neg hz, if_neg hz]
          exact ih g (migrated + (fetchBatch (srcAt j) migrated B).length)
            (nbatches + 1) (j + 1) (dest ++ fetchBatch (srcAt j) migrated B)
            (acc ++ [fetchBatch (srcAt j) migrated B])
            (by omega) (by omega)
      · rw [if_neg hlt, if_neg hlt]

end BigData

namespace BigData

theorem migLoop_const_spec (src : List Nat) (B : Nat) (hB : 1 ≤ B) :
    ∀ (fuel migrated nbatches j : Nat) (dest : List Nat)
      (acc : List (List Nat)),
      migrated ≤ src.length → src.length - migrated < fuel →
      (migLoop (fun _ => src) B src.length migrated nbatches j dest acc
          fuel).total = src.length ∧
      (migLoop (fun _ => src) B src.length migrated nbatches j dest acc
          fuel).migrated = src.length ∧
      (migLoop (fun _ => src) B src.length migrated nbatches j dest acc
          fuel).dest = dest ++ (sortIds src).drop migrated ∧
      (migLoop (fun _ => src) B src.length migrated nbatches j dest acc
          fuel).batchesList.flatten =
        acc.flatten ++ (sortIds src).drop migrated ∧
      ∀ b ∈ (migLoop (fun _ => src) B src.length migrated nbatches j dest
          acc fuel).batchesList, b ∈ acc ∨ b.length ≤ B := by
  intro fuel
  induction fuel with
  | zero => intro migrated _ _ _ _ hm hf; omega
  | succ f ih =>
    intro migrated nbatches j dest acc hm hf
    by_cases hlt : migrated < src.length
    · have hlen : (fetchBatch src migrated B).length =
          min B (src.length - migrated) := length_fetchBatch src migrated B
      have hpos : (fetchBatch src migrated B).length ≠ 0 := by
        rw [hlen]
        have : 0 < min B (src.length - migrated) :=
          lt_min_iff.mpr ⟨by omega, by omega⟩
        omega
      have hle : (fetchBatch src migrated B).length ≤
          src.length - migrated := by
        rw [hlen]; exact Nat.min_le_right _ _
      have hstep :
          migLoop (fun _ => src) B src.length migrated nbatches j dest acc
              (f + 1) =
            migLoop (fun _ => src) B src.length
              (migrated + (fetchBatch src migrated B).length)
              (nbatches + 1) (j + 1) (dest ++ fetchBatch src migrated B)
              (acc ++ [fetchBatch src migrated B]) f := by
        simp only [migLoop]
        rw [if_pos hlt, if_neg hpos]
      rw [hstep]
      obtain ⟨ht, hmig, hdest, hjoin, hacc⟩ :=
        ih (migrated + (fetchBatch src migrated B).length) (nbatches + 1)
          (j + 1) (dest ++ fetchBatch src migrated B)
          (acc ++ [fetchBatch src migrated B]) (by omega) (by omega)
      have hglue : fetchBatch src migrated B ++
          (sortIds src).drop (migrated + (fetchBatch src migrated B).length)
            = (sortIds src).drop migrated := by
        have := aux_slice_glue (sortIds src) migrated B
        simpa [fetchBatch] using this
      refine ⟨ht, hmig, ?_, ?_, ?_⟩
      · rw [hdest, List.append_assoc, hglue]
      · rw [hjoin, List.flatten_append]
        simp only [List.flatten_cons, List.flatten_nil, List.append_nil]
        rw [List.append_assoc, hglue]
      · intro b hb
        rcases hacc b hb with hin | hlenb
        · rcases List.mem_append.mp hin with h1 | h1
          · exact Or.inl h1
          · right
            have : b = fetchBatch src migrated B := by
              simpa using h1
            rw [this, hlen]
            exact Nat.min_le_left _ _
        · exact Or.inr hlenb
    · have hmeq : migrated = src.length := by omega
      have hstop :
          migLoop (fun _ => src) B src.length migrated nbatches j dest acc
              (f + 1) = ⟨src.length, migrated, nbatches, dest, acc⟩ := by
        simp only [migLoop]
        rw [if_neg hlt]
      rw [hstop]
      have hdrop : (sortIds src).drop migrated = [] := by
        apply List.drop_eq_nil_of_le
        rw [length_sortIds]; omega
      exact ⟨rfl, hmeq, by simp [hdrop], by simp [hdrop], fun b hb => Or.inl hb⟩

end BigData

namespace BigData

theorem migrate_static_spec (src dest0 : List Nat) (B : Nat) (hB : 1 ≤ B) :
    (PartitionSolution.migrate_data_to_partitioned src dest0 B).total =
      src.length ∧
    (PartitionSolution.migrate_data_to_partitioned src dest0 B).migrated =
      src.length ∧
    (PartitionSolution.migrate_data_to_partitioned src dest0 B).dest =
      sortIds src ∧
    (PartitionSolution.migrate_data_to_partitioned src dest0
        B).batchesList.flatten = sortIds src ∧
    ∀ b ∈ (PartitionSolution.migrate_data_to_partitioned src dest0
        B).batchesList, b.length ≤ B := by
  unfold PartitionSolution.migrate_data_to_partitioned
    PartitionSolution.migrate_data_to_partitioned_dyn
  by_cases h : src.length = 0
  · have hnil : src = [] := List.length_eq_zero.mp h
    subst hnil
    simp [sortIds]
  · rw [if_neg h]
    obtain ⟨ht, hmig, hdest, hjoin, hacc⟩ :=
      migLoop_const_spec src B hB (src.length + 1) 0 0 1 [] []
        (by omega) (by omega)
    refine ⟨ht, hmig, ?_, ?_, ?_⟩
    · simpa using hdest
    · simpa using hjoin
    · intro b hb
      rcases hacc b hb with hin | hlenb
      · simp at hin
      · exact hlenb

theorem sorted_lt_sortIds (l : List Nat) (hl : l.Nodup) :
    (sortIds l).Sorted (· < ·) := by
  have hs : (sortIds l).Sorted (· ≤ ·) :=
    List.sorted_insertionSort _ l
  have hn : (sortIds l).Nodup := (perm_sortIds l).symm.nodup hl
  exact (hs.and hn).imp (fun h => lt_of_le_of_ne h.1 h.2)

theorem pairwise_crossLt_of_flatten_sorted :
    ∀ (bs : List (List Nat)), bs.flatten.Sorted (· < ·) →
      List.Pairwise crossLt bs := by
  intro bs
  induction bs with
  | nil => intro _; exact List.Pairwise.nil
  | cons b bs ih =>
    intro h
    rw [List.flatten_cons] at h
    obtain ⟨h1, h2, h3⟩ := List.pairwise_append.mp h
    refine List.Pairwise.cons ?_ (ih h2)
    intro b' hb' x hx y hy
    exact h3 x hx y (List.mem_flatten.mpr ⟨b', hb', hy⟩)

theorem chain_le_scanl :
    ∀ (ns : List Nat) (s : Nat),
      List.Chain' (· ≤ ·) (List.scanl (· + ·) s ns) := by
  intro ns
  induction ns with
  | nil => intro s; simp [List.scanl]
  | cons n ns ih =>
    intro s
    rw [List.scanl_cons, List.singleton_append]
    have hh : (List.scanl (· + ·) (s + n) ns).head? = some (s + n) := by
      cases ns <;> simp [List.scanl]
    refine List.chain'_cons'.mpr ⟨?_, ih (s + n)⟩
    intro y hy
    rw [hh, Option.mem_def, Option.some.injEq] at hy
    omega

theorem mem_scanl_le_sum :
    ∀ (ns : List Nat) (s : Nat) (m : Nat),
      m ∈ List.scanl (· + ·) s ns → m ≤ s + ns.sum := by
  intro ns
  induction ns with
  | nil =>
    intro s m hm
    simp [List.scanl] at hm
    omega
  | cons n ns ih =>
    intro s m hm
    rw [List.scanl_cons, List.singleton_append] at hm
    rcases List.mem_cons.mp hm with h1 | h1
    · subst h1; simp
    · have := ih (s + n) m h1
      simp [List.sum_cons]
      omega

theorem migLoop_dest_mem (src : List Nat) (B total : Nat) :
    ∀ (fuel migrated nbatches j : Nat) (dest : List Nat)
      (acc : List (List Nat)) (x : Nat),
      x ∈ (migLoop (fun _ => src) B total migrated nbatches j dest acc
        fuel).dest → x ∈ dest ∨ x ∈ src := by
  intro fuel
  induction fuel with
  | zero => intro _ _ _ _ _ x hx; exact Or.inl hx
  | succ f ih =>
    intro migrated nbatches j dest acc x hx
    have hbatch : ∀ y ∈ fetchBatch src migrated B, y ∈ src := by
      intro y hy
      have h1 : y ∈ (sortIds src).drop migrated :=
        List.mem_of_mem_take hy
      have h2 : y ∈ sortIds src := List.mem_of_mem_drop h1
      exact (perm_sortIds src).mem_iff.mp h2
    simp only [migLoop] at hx
    by_cases hlt : migrated < total
    · rw [if_pos hlt] at hx
      by_cases hz : (fetchBatch src migrated B).length = 0
      · rw [if_pos hz] at hx
        simp only at hx
        rcases List.mem_append.mp hx with h1 | h1
        · exact Or.inl h1
        · exact Or.inr (hbatch x h1)
      · rw [if_neg hz] at hx
        rcases ih _ _ _ _ _ x hx with h1 | h1
        · rcases List.mem_append.mp h1 with h2 | h2
          · exact Or.inl h2
          · exact Or.inr (hbatch x h2)
        · exact Or.inr h1
    · rw [if_neg hlt] at hx
      exact Or.inl hx

end BigData

namespace BigData

theorem cmpLoop_ok_front (outcome : Nat → Except String Unit) :
    ∀ (goods : List Nat), (∀ d ∈ goods, outcome d = .ok ()) →
      ∀ (l : List Nat) (st : CreateResult),
        cmpLoop outcome (goods ++ l) st =
          cmpLoop outcome l
            ⟨st.created ++ goods, st.attempted ++ goods, st.errorLog⟩ := by
  intro goods
  induction goods with
  | nil =>
    intro _ l st
    cases st
    simp
  | cons g gs ih =>
    intro h l st
    have hg : outcome g = .ok () := h g (List.mem_cons_self g gs)
    simp only [List.cons_append, cmpLoop, hg]
    rw [List.append_eq, ih (fun d hd => h d (List.mem_cons_of_mem g hd)) l]
    congr 1 <;> simp

theorem aux_range_decomp (i n : Nat) (h : i < n) :
    List.range n =
      List.range i ++ i ::
        ((List.range (n - i - 1)).map (fun k => i + 1 + k)) := by
  induction n with
  | zero => omega
  | succ m ih =>
    by_cases him : i = m
    · subst him
      rw [List.range_succ]
      simp [Nat.succ_sub_one, Nat.sub_self]
    · have him' : i < m := by omega
      rw [List.range_succ, ih him']
      have h1 : m + 1 - i - 1 = (m - i - 1) + 1 := by omega
      have h2 : i + 1 + (m - i - 1) = m := by omega
      rw [h1, List.range_succ, List.map_append]
      simp [h2]

end BigData

namespace BigData

/-- C3: for every source content and every batch size B ≥ 1, when
`migrate_data_to_partitioned` completes with `migrated_rows` equal to the
`total_rows` snapshot, the row-count verification reports a match and the
destination holds exactly `src.length` rows. -/
theorem c3_migrate_complete_verify (src dest0 : List Nat) (B : Nat)
    (hB : 1 ≤ B)
    (hc : (PartitionSolution.migrate_data_to_partitioned src dest0
        B).migrated =
      (PartitionSolution.migrate_data_to_partitioned src dest0 B).total) :
    (verify src (PartitionSolution.migrate_data_to_partitioned src dest0
        B).dest).rowCountsMatch = true ∧
    (verify src (PartitionSolution.migrate_data_to_partitioned src dest0
        B).dest).destCount = src.length := by
  obtain ⟨ht, hmig, hdest, hjoin, hacc⟩ := migrate_static_spec src dest0 B hB
  rw [hdest]
  constructor
  · simp [verify, length_sortIds]
  · simp [verify, length_sortIds]

theorem c3_migrate_complete_verify_witness :
    (verify [3, 1, 2] (PartitionSolution.migrate_data_to_partitioned
        [3, 1, 2] [9] 2).dest).rowCountsMatch = true ∧
    (verify [3, 1, 2] (PartitionSolution.migrate_data_to_partitioned
        [3, 1, 2] [9] 2).dest).destCount = [3, 1, 2].length :=
  c3_migrate_complete_verify [3, 1, 2] [9] 2 (by decide) (by decide)

set_option maxRecDepth 100000 in
/-- C4: a static source of 237 rows migrated with batch size 50 yields
exactly 5 executed batches with row counts [50, 50, 50, 50, 37] in that
order, and the run finishes with `migrated_rows` = 237. -/
theorem c4_237_rows_50_batch :
    (PartitionSolution.migrate_data_to_partitioned (List.range 237) []
        50).batchesApplied = 5 ∧
    (PartitionSolution.migrate_data_to_partitioned (List.range 237) []
        50).batchesList.map List.length = [50, 50, 50, 50, 37] ∧
    (PartitionSolution.migrate_data_to_partitioned (List.range 237) []
        50).migrated = 237 := by
  refine ⟨?_, ?_, ?_⟩ <;> rfl

/-- C5: on an empty source table `migrate_data_to_partitioned` returns
early with `migrated_rows` = 0 and no executed batch, and (the destination
having been truncated) the row-count verification trivially matches. -/
theorem c5_empty_source (B : Nat) (dest0 : List Nat) :
    PartitionSolution.migrate_data_to_partitioned [] dest0 B =
      { total := 0, migrated := 0, batchesApplied := 0, dest := [],
        batchesList := [] } ∧
    (verify [] (PartitionSolution.migrate_data_to_partitioned [] dest0
        B).dest).rowCountsMatch = true :=
  ⟨rfl, rfl⟩

/-- C7: `time_query` discards the warm-up duration (whatever it is) and
returns the median of the measured durations; for the measured sequence
[10, 12, 11, 50, 9] ms with runs = 5 it returns 11 ms, unaffected by the
50 ms outlier. -/
theorem c7_time_query_median (w : ℚ) :
    OptimizationReport.time_query
      (fun n => (w :: [10, 12, 11, 50, 9]).getD n 0) 5 = some 11 := by
  show OptimizationReport.median ((List.range 5).map
    (fun i => (w :: [10, 12, 11, 50, 9]).getD (i + 1) 0)) = some 11
  rw [show (List.range 5).map
      (fun i => ((w :: [10, 12, 11, 50, 9]).getD (i + 1) 0)) =
      [10, 12, 11, 50, 9] from rfl]
  rfl

/-- C8: the report generator computes
improvement% = (before - after) / before * 100 exactly when before > 0 and
yields 0 otherwise (the division is guarded); in particular
`compare(100, 20)` yields 80 and `compare(0, 5)` yields 0. -/
theorem c8_improvement_guard (b a : ℚ) :
    ((0 < b →
        OptimizationReport.improvement_pct b a = (b - a) / b * 100) ∧
      (¬ 0 < b → OptimizationReport.improvement_pct b a = 0)) ∧
    OptimizationReport.improvement_pct 100 20 = 80 ∧
    OptimizationReport.improvement_pct 0 5 = 0 := by
  refine ⟨⟨fun h => ?_, fun h => ?_⟩, ?_, ?_⟩
  · rw [OptimizationReport.improvement_pct, if_pos h]
  · rw [OptimizationReport.improvement_pct, if_neg h]
  · norm_num [OptimizationReport.improvement_pct]
  · norm_num [OptimizationReport.improvement_pct]

/-- C10: every invocation of `3_partition_solution.py`'s
`migrate_data_to_partitioned` first truncates the destination, so its
result does not depend on the destination contents at entry, rows present
before the call never survive into the final destination (everything in
the final destination comes from the source), and on an empty source the
destination ends empty even though nothing is migrated. -/
theorem c10_truncate_discards_destination (src dest0 : List Nat)
    (B : Nat) :
    PartitionSolution.migrate_data_to_partitioned src dest0 B =
      PartitionSolution.migrate_data_to_partitioned src [] B ∧
    (PartitionSolution.migrate_data_to_partitioned [] dest0 B).dest =
      [] ∧
    (PartitionSolution.migrate_data_to_partitioned src dest0 B).dest ⊆
      src := by
  refine ⟨rfl, rfl, ?_⟩
  intro x hx
  simp only [PartitionSolution.migrate_data_to_partitioned,
    PartitionSolution.migrate_data_to_partitioned_dyn] at hx
  by_cases h : src.length = 0
  · rw [if_pos h] at hx
    simp at hx
  · rw [if_neg h] at hx
    rcases migLoop_dest_mem src B src.length (src.length + 1) 0 0 1 [] []
        x hx with h1 | h1
    · simp at h1
    · exact h1

end BigData

namespace BigData

/-- C1 counterexample: with batch size 2 and a source that is [1, 2, 3] at
the count and at the first batch but has gained row 0 by the second batch,
the run fetches batches [[1, 2], [2, 3]]: the second batch repeats
identifier 2 (it does not begin strictly after the last migrated
identifier) and differs from the keyset slice [3], because the code
selects batches by positional OFFSET/LIMIT. -/
theorem c1_counterexample :
    (PartitionSolution.migrate_data_to_partitioned_dyn
        (fun j => if j ≤ 1 then [1, 2, 3] else [0, 1, 2, 3]) []
        2).batchesList = [[1, 2], [2, 3]] ∧
    ¬ crossLt [1, 2] [2, 3] ∧
    ¬ List.Pairwise crossLt
      (PartitionSolution.migrate_data_to_partitioned_dyn
        (fun j => if j ≤ 1 then [1, 2, 3] else [0, 1, 2, 3]) []
        2).batchesList ∧
    keyset_slice [0, 1, 2, 3] 2 2 = [3] ∧
    ([2, 3] : List Nat) ≠ [3] := by decide

/-- C1 (amended): each batch is the positional OFFSET/LIMIT slice of the
source ordered by identifier, so when the source does not change during
the run (and identifiers are unique) the batches partition the ordered
source into consecutive slices of at most `batch_size` rows, each batch
lying strictly after every previously migrated identifier; under
concurrent inserts into the source this keyset property fails (see the
counterexample). -/
theorem c1_static_offset_slices (src dest0 : List Nat) (B : Nat)
    (hB : 1 ≤ B) (hnd : src.Nodup) :
    (PartitionSolution.migrate_data_to_partitioned src dest0
        B).batchesList.flatten = sortIds src ∧
    (∀ b ∈ (PartitionSolution.migrate_data_to_partitioned src dest0
        B).batchesList, b.length ≤ B) ∧
    List.Pairwise crossLt
      (PartitionSolution.migrate_data_to_partitioned src dest0
        B).batchesList := by
  obtain ⟨ht, hmig, hdest, hjoin, hacc⟩ := migrate_static_spec src dest0 B hB
  refine ⟨hjoin, hacc, ?_⟩
  apply pairwise_crossLt_of_flatten_sorted
  rw [hjoin]
  exact sorted_lt_sortIds src hnd

theorem c1_static_offset_slices_witness :
    (PartitionSolution.migrate_data_to_partitioned [2, 0, 1] [9]
        2).batchesList.flatten = sortIds [2, 0, 1] ∧
    (∀ b ∈ (PartitionSolution.migrate_data_to_partitioned [2, 0, 1] [9]
        2).batchesList, b.length ≤ 2) ∧
    List.Pairwise crossLt
      (PartitionSolution.migrate_data_to_partitioned [2, 0, 1] [9]
        2).batchesList :=
  c1_static_offset_slices [2, 0, 1] [9] 2 (by decide) (by decide)

/-- C2 counterexample: in the `Task3_2.py` variant (no TRUNCATE), a run on
source [1, 2] with batch size 1 interrupted after committing batch 1
leaves destination [1]; re-invoking migrate with the same arguments
restarts `migrated_rows` at 0 and appends [1] and [2] again, ending with
[1, 1, 2] — not the multiset [1, 2] an uninterrupted run produces (row 1
is duplicated). -/
theorem c2_counterexample :
    (Task32.migrate_data_to_partitioned [1, 2]
        (Task32.interruptedDest [1, 2] [] 1 1) 1).dest = [1, 1, 2] ∧
    (Task32.migrate_data_to_partitioned [1, 2] [] 1).dest = [1, 2] ∧
    ¬ List.Perm
      (Task32.migrate_data_to_partitioned [1, 2]
        (Task32.interruptedDest [1, 2] [] 1 1) 1).dest
      (Task32.migrate_data_to_partitioned [1, 2] [] 1).dest := by decide

/-- C2 (amended): for the `3_partition_solution.py` variant, which
truncates the destination at the start of every invocation, re-invoking
migrate after an interruption behind any committed batch `k` yields
exactly the final destination content of an uninterrupted run (the restart
discards the partial work and re-copies everything rather than resuming
from a persisted cursor), and that content is a permutation of the source
(no duplicate, no missing rows).  The `Task3_2.py` variant, which does not
truncate, duplicates the already-committed batches on re-invocation. -/
theorem c2_truncate_restart_equiv (src dest0 : List Nat) (B k : Nat)
    (hB : 1 ≤ B) :
    (PartitionSolution.migrate_data_to_partitioned src
        (PartitionSolution.interruptedDest src dest0 B k) B).dest =
      (PartitionSolution.migrate_data_to_partitioned src dest0 B).dest ∧
    List.Perm
      (PartitionSolution.migrate_data_to_partitioned src dest0 B).dest
      src := by
  constructor
  · rfl
  · obtain ⟨_, _, hdest, _, _⟩ := migrate_static_spec src dest0 B hB
    rw [hdest]
    exact perm_sortIds src

theorem c2_truncate_restart_equiv_witness :
    (PartitionSolution.migrate_data_to_partitioned [1, 2]
        (PartitionSolution.interruptedDest [1, 2] [7] 1 1) 1).dest =
      (PartitionSolution.migrate_data_to_partitioned [1, 2] [7] 1).dest ∧
    List.Perm
      (PartitionSolution.migrate_data_to_partitioned [1, 2] [7] 1).dest
      [1, 2] :=
  c2_truncate_restart_equiv [1, 2] [7] 1 1 (by decide)

/-- C9 counterexample: with a source holding one row at the count
snapshot but three rows by the first batch fetch, a run with batch size 4
ends with `migrated_rows` = 3 while the snapshot total is 1: the migrated
count exceeds the total source count snapshot. -/
theorem c9_counterexample :
    (PartitionSolution.migrate_data_to_partitioned_dyn
        (fun j => if j = 0 then [5] else [5, 6, 7]) [] 4).total = 1 ∧
    (PartitionSolution.migrate_data_to_partitioned_dyn
        (fun j => if j = 0 then [5] else [5, 6, 7]) [] 4).migrated = 3 ∧
    3 ∈ migratedTrace (PartitionSolution.migrate_data_to_partitioned_dyn
        (fun j => if j = 0 then [5] else [5, 6, 7]) [] 4) ∧
    ¬ (PartitionSolution.migrate_data_to_partitioned_dyn
        (fun j => if j = 0 then [5] else [5, 6, 7]) [] 4).migrated ≤
      (PartitionSolution.migrate_data_to_partitioned_dyn
        (fun j => if j = 0 then [5] else [5, 6, 7]) [] 4).total := by decide

/-- C9 (amended): the migrated count is monotonically non-decreasing from
batch to batch in every run, including runs over a changing source; and
when the source is static for the duration of the run the migrated count
additionally never exceeds the total-count snapshot.  Under concurrent
inserts into the source the bound can be exceeded (see the
counterexample). -/
theorem c9_trace_monotone_and_static_bound :
    (∀ (srcAt : Nat → List Nat) (dest0 : List Nat) (B : Nat),
      List.Chain' (· ≤ ·) (migratedTrace
        (PartitionSolution.migrate_data_to_partitioned_dyn srcAt dest0
          B))) ∧
    (∀ (src dest0 : List Nat) (B : Nat), 1 ≤ B →
      ∀ m ∈ migratedTrace
        (PartitionSolution.migrate_data_to_partitioned src dest0 B),
          m ≤ (PartitionSolution.migrate_data_to_partitioned src dest0
            B).total) := by
  constructor
  · intro srcAt dest0 B
    exact chain_le_scanl _ 0
  · intro src dest0 B hB m hm
    obtain ⟨ht, hmig, hdest, hjoin, hacc⟩ :=
      migrate_static_spec src dest0 B hB
    unfold migratedTrace at hm
    have h1 := mem_scanl_le_sum _ 0 m hm
    have h2 : ((PartitionSolution.migrate_data_to_partitioned src dest0
        B).batchesList.map List.length).sum = (sortIds src).length := by
      rw [← List.length_flatten, hjoin]
    rw [ht, ← length_sortIds src]
    omega

theorem c9_trace_monotone_and_static_bound_witness :
    2 ≤ (PartitionSolution.migrate_data_to_partitioned [4, 2] [] 1).total :=
  c9_trace_monotone_and_static_bound.2 [4, 2] [] 1 (by decide) 2 (by decide)

end BigData

namespace BigData

/-- C6: when the DDL capability fails for the i-th requested month after
succeeding for months 0..i-1, `create_monthly_partitions` invokes the
capability for exactly months 0..i (none of the remaining months is
attempted), ends with exactly months 0..i-1 created, reports the failing
month's error, and the database afterwards holds every partition it held
before plus every partition created by this call — the per-month commits
are never rolled back. -/
theorem c6_create_partitions_abort_no_rollback
    (outcome : Nat → Except String Unit) (start n i : Nat) (e : String)
    (hi : i < n) (hfail : outcome (start + i) = .error e)
    (hok : ∀ j, j < i → outcome (start + j) = .ok ()) :
    (create_monthly_partitions outcome start n).created =
      (List.range i).map (fun j => start + j) ∧
    (create_monthly_partitions outcome start n).attempted =
      (List.range (i + 1)).map (fun j => start + j) ∧
    (create_monthly_partitions outcome start n).errorLog = [e] ∧
    ∀ db0 : List Nat,
      partitionsAfter db0 (create_monthly_partitions outcome start n) =
        db0 ++ (List.range i).map (fun j => start + j) := by
  have hdec := aux_range_decomp i n hi
  unfold create_monthly_partitions
  rw [hdec, List.map_append, List.map_cons]
  have hgoods : ∀ d ∈ (List.range i).map (fun j => start + j),
      outcome d = .ok () := by
    intro d hd
    obtain ⟨j, hj, rfl⟩ := List.mem_map.mp hd
    exact hok j (List.mem_range.mp hj)
  rw [cmpLoop_ok_front outcome _ hgoods]
  simp only [cmpLoop, hfail]
  refine ⟨by simp, ?_, by simp, ?_⟩
  · rw [List.range_succ, List.map_append]
    simp
  · intro db0
    unfold partitionsAfter
    simp

theorem c6_create_partitions_abort_no_rollback_witness :
    (create_monthly_partitions
        (fun d => if d = 7 then .error "boom" else .ok ()) 5 6).created =
      (List.range 2).map (fun j => 5 + j) ∧
    (create_monthly_partitions
        (fun d => if d = 7 then .error "boom" else .ok ()) 5 6).attempted =
      (List.range (2 + 1)).map (fun j => 5 + j) ∧
    (create_monthly_partitions
        (fun d => if d = 7 then .error "boom" else .ok ()) 5 6).errorLog =
      ["boom"] ∧
    ∀ db0 : List Nat,
      partitionsAfter db0 (create_monthly_partitions
          (fun d => if d = 7 then .error "boom" else .ok ()) 5 6) =
        db0 ++ (List.range 2).map (fun j => 5 + j) :=
  c6_create_partitions_abort_no_rollback
    (fun d => if d = 7 then .error "boom" else .ok ()) 5 6 2 "boom"
    (by decide) rfl (by intro j hj; interval_cases j <;> rfl)

end BigData
